import Mathlib

/-!
# border-colorpicker: colour codec, settings start-up and border update

A shallow embedding of `main.go`.  Go strings are byte sequences, `uint8`
channels and `uint64` accumulators are natural numbers with their ranges and
wrap-arounds written out, and a `float64` is its IEEE-754 bit pattern.  Calls
that leave the process (home directory lookup, file reads and writes, running
the `borders` command, logging) are answered by an explicit environment and
recorded in an event trace.
-/

namespace BorderPicker

/-! ## Strings and bytes -/

/-- A Go `string`: the sequence of its bytes (each below 256). -/
abbrev GoString := List Nat

/-- The bytes of a string literal of the source (its UTF-8 encoding). -/
def lit (s : String) : GoString :=
  (s.data.flatMap String.utf8EncodeChar).map UInt8.toNat

/-! ## `image/color` -/

/-- Go `color.NRGBA`: four `uint8` channels. -/
structure NRGBA where
  R : Nat
  G : Nat
  B : Nat
  A : Nat
deriving DecidableEq, Repr

/-- The channels are `uint8` values. -/
def NRGBA.WF (c : NRGBA) : Prop := c.R < 256 ∧ c.G < 256 ∧ c.B < 256 ∧ c.A < 256

instance (c : NRGBA) : Decidable c.WF := by
  unfold NRGBA.WF; infer_instance

/-- Go `color.Color`, an interface value: either its dynamic type is
`color.NRGBA`, or it is some other implementation, seen only through the four
`uint32` results `r, g, b, a` of its `RGBA()` method. -/
inductive Color where
  | nrgba (c : NRGBA)
  | other (r g b a : Nat)
deriving DecidableEq, Repr

/-! ## Errors -/

/-- The two sentinel errors of `strconv` that `ParseUint` wraps. -/
inductive StrconvErr where
  | ErrSyntax
  | ErrRange
deriving DecidableEq, Repr

/-- Go `strconv.NumError`. -/
structure NumError where
  Func : GoString
  Num : GoString
  Err : StrconvErr
deriving DecidableEq, Repr

/-- Go `error` values met by the program: one built by `fmt.Errorf` (carrying
its formatted message), a `*strconv.NumError`, or an error handed back by the
operating system, the JSON library or the child process. -/
inductive Error where
  | errorf (msg : GoString)
  | num (e : NumError)
  | external (msg : GoString)
deriving DecidableEq, Repr

deriving instance DecidableEq for Except

/-! ## `fmt` verbs used by the program -/

/-- The digit table `ldigits` of package `fmt`. -/
def ldigits : GoString := lit "0123456789abcdef"

/-- The digit loop of `fmt.fmtInteger` in base 16: digits are produced from
the least significant end, `for u >= 16 { buf[i] = digits[u&0xF]; u >>= 4 }`
and then `buf[i] = digits[u]`.  The first argument bounds the iterations. -/
def fmtHexLoop : Nat → Nat → GoString → GoString
  | 0, _, buf => buf
  | fuel + 1, u, buf =>
    if u ≥ 16 then fmtHexLoop fuel (u >>> 4) (ldigits.getD (u &&& 0xF) 0 :: buf)
    else ldigits.getD u 0 :: buf

/-- Verb `%.Nx` of `fmt` on an unsigned integer `u` (`fmt.fmtInteger` with a
precision): nothing for precision 0 and value 0; otherwise the lower-case
hexadecimal digits, padded on the left with zeros up to the precision `prec`. -/
def fmtHex (prec u : Nat) : GoString :=
  if prec = 0 ∧ u = 0 then []
  else
    let ds := fmtHexLoop (u + 1) u []
    List.replicate (prec - ds.length) 48 ++ ds

/-! ## `strconv.ParseUint` -/

/-- Helper `lower` of `strconv`: `c | ('x' - 'X')`. -/
def lower (c : Nat) : Nat := c ||| 32

/-- The digit value `ParseUint` gives a byte, before the comparison with the
base: `c - '0'` for `'0'..'9'`, `lower(c) - 'a' + 10` for letters, and no
value for any other byte. -/
def digitVal (c : Nat) : Option Nat :=
  if 48 ≤ c ∧ c ≤ 57 then some (c - 48)
  else if 97 ≤ lower c ∧ lower c ≤ 122 then some (lower c - 97 + 10)
  else none

/-- The loop of `strconv.ParseUint` over the bytes of the string, for a base
between 2 and 36 (so no underscore is accepted), with `n` the `uint64`
accumulator. -/
def parseUintLoop (base cutoff maxVal : Nat) : GoString → Nat → Except StrconvErr Nat
  | [], n => .ok n
  | c :: cs, n =>
    match digitVal c with
    | none => .error .ErrSyntax
    | some d =>
      if d ≥ base then .error .ErrSyntax
      else if n ≥ cutoff then .error .ErrRange
      else
        let n0 := (n * base) % 2 ^ 64
        let n1 := (n0 + d) % 2 ^ 64
        if n1 < n0 ∨ n1 > maxVal then .error .ErrRange
        else parseUintLoop base cutoff maxVal cs n1

/-- Go `strconv.ParseUint(s, base, bitSize)` for `2 ≤ base ≤ 36` and
`1 ≤ bitSize ≤ 64`, the only way the program calls it (`base = 16`,
`bitSize = 32`). -/
def ParseUint (s : GoString) (base bitSize : Nat) : Except NumError Nat :=
  if s = [] then .error ⟨lit "ParseUint", s, .ErrSyntax⟩
  else
    let cutoff := (2 ^ 64 - 1) / base + 1
    let maxVal := 2 ^ bitSize - 1
    match parseUintLoop base cutoff maxVal s 0 with
    | .ok n => .ok n
    | .error e => .error ⟨lit "ParseUint", s, e⟩

/-! ## The colour codec of `main.go` -/

/-- Go `parseHexColor`: converts a hex string (in "0xAARRGGBB" format) to
`color.NRGBA`. -/
def parseHexColor (s : GoString) : Except Error NRGBA :=
  if s.length ≠ 10 ∨ s.take 2 ≠ lit "0x" then
    .error (.errorf (lit "invalid color format: " ++ s))
  else
    match ParseUint (s.drop 2) 16 32 with
    | .error e => .error (.num e)
    | .ok val =>
      .ok { A := ((val >>> 24) &&& 0xFF) % 256
            R := ((val >>> 16) &&& 0xFF) % 256
            G := ((val >>> 8) &&& 0xFF) % 256
            B := (val &&& 0xFF) % 256 }

/-- Go `hexColorString`: `fmt.Sprintf("0x%.2x%.2x%.2x%.2x", c.A, c.R, c.G, c.B)`. -/
def hexColorString (c : NRGBA) : GoString :=
  lit "0x" ++ fmtHex 2 c.A ++ fmtHex 2 c.R ++ fmtHex 2 c.G ++ fmtHex 2 c.B

/-- Go `toNRGBA`: converts any `color.Color` to a `color.NRGBA`. -/
def toNRGBA (c : Color) : NRGBA :=
  match c with
  | .nrgba nrgba => nrgba
  | .other r g b a =>
    { R := (r >>> 8) % 256
      G := (g >>> 8) % 256
      B := (b >>> 8) % 256
      A := (a >>> 8) % 256 }

/-! ## `float64` and the verb `%.1f` -/

/-- Go `float64`: the IEEE-754 binary64 bit pattern, a number below `2 ^ 64`
(sign bit 63, exponent bits 62..52, fraction bits 51..0). -/
abbrev Float64 := Nat

/-- Neither an infinity nor a NaN: the exponent field is not all ones. -/
def Float64.isFinite (w : Float64) : Bool := (w >>> 52) &&& 0x7FF != 0x7FF

/-- The magnitude of a finite `float64` as a fraction `mant * 2 ^ (exp - 1075)`:
the significand (with the implicit top bit unless the exponent field is 0) and
the exponent field (read as 1 when it is 0), as `strconv` extracts them. -/
def Float64.mantExp (w : Float64) : Nat × Nat :=
  let exp := (w >>> 52) &&& 0x7FF
  let mant := w &&& (2 ^ 52 - 1)
  if exp = 0 then (mant, 1) else (mant ||| 2 ^ 52, exp)

/-- The decimal digit loop: least significant digit first, collected in front
of `buf`.  The first argument bounds the iterations. -/
def fmtDecLoop : Nat → Nat → GoString → GoString
  | 0, _, buf => buf
  | fuel + 1, u, buf =>
    if u ≥ 10 then fmtDecLoop fuel (u / 10) ((48 + u % 10) :: buf)
    else (48 + u) :: buf

/-- The decimal digits of a natural number, `"0"` for zero. -/
def fmtDec (u : Nat) : GoString := fmtDecLoop (u + 1) u []

/-- The magnitude of a finite `float64` in tenths, rounded to the nearest
integer with ties to the even one: what `decimal.Round` of `strconv` leaves
after `Assign(mant)`, `Shift(exp - 52)` and rounding to one fractional digit. -/
def Float64.roundTenths (w : Float64) : Nat :=
  let (mant, exp) := w.mantExp
  if 1075 ≤ exp then 10 * mant * 2 ^ (exp - 1075)
  else
    let den := 2 ^ (1075 - exp)
    let q := 10 * mant / den
    let r := 10 * mant % den
    if 2 * r > den ∨ (2 * r = den ∧ q % 2 = 1) then q + 1 else q

/-- Verb `%.1f` of `fmt` on a `float64` (`strconv.AppendFloat(v, 'f', 1, 64)`
with the sign handling of `fmt.fmtFloat`): `NaN`, `+Inf` and `-Inf` for the
special values; otherwise `-` if the sign bit is set, the integer part in
decimal, a point and one fractional digit. -/
def fmtFloat1 (w : Float64) : GoString :=
  let neg := w >>> 63 != 0
  let exp := (w >>> 52) &&& 0x7FF
  let mant := w &&& (2 ^ 52 - 1)
  if exp = 0x7FF then
    if mant ≠ 0 then lit "NaN" else if neg then lit "-Inf" else lit "+Inf"
  else
    let t := w.roundTenths
    (if neg then [45] else []) ++ fmtDec (t / 10) ++ [46] ++ [48 + t % 10]

/-! ## Settings, environment and events -/

/-- Go `Config`: holds the user selections. -/
structure Config where
  ActiveColor : GoString
  InactiveColor : GoString
  BorderWidth : Float64
deriving DecidableEq, Repr

/-- Go constant `configFileName`. -/
def configFileName : GoString := lit "border_picker.json"

/-- What lies outside the program: the answers of the operating system to the
calls the program makes, and the library functions of `path/filepath` and
`encoding/json` it uses. -/
structure Env where
  /-- Go `os.UserHomeDir()`. -/
  UserHomeDir : Except Error GoString
  /-- Go `os.ReadFile(path)`. -/
  ReadFile : GoString → Except Error GoString
  /-- Go `os.MkdirAll(path, perm)`; `none` is a nil error. -/
  MkdirAll : GoString → Nat → Option Error
  /-- Go `os.WriteFile(path, data, perm)`; `none` is a nil error. -/
  WriteFile : GoString → GoString → Nat → Option Error
  /-- Go `exec.Command(name, args...).Run()`; `none` is a nil error. -/
  Run : GoString → List GoString → Option Error
  /-- Go `filepath.Join(elem...)`. -/
  Join : List GoString → GoString
  /-- Go `filepath.Dir(path)`. -/
  Dir : GoString → GoString
  /-- Go `json.Unmarshal(data, &cfg)` into a zero `Config`. -/
  Unmarshal : GoString → Except Error Config
  /-- Go `json.MarshalIndent(cfg, prefix, indent)`. -/
  MarshalIndent : Config → GoString → GoString → Except Error GoString

/-- A call that leaves the process, in the order the program makes them. -/
inductive Event where
  | userHomeDir
  | readFile (path : GoString)
  | mkdirAll (path : GoString) (perm : Nat)
  | writeFile (path data : GoString) (perm : Nat)
  | run (name : GoString) (args : List GoString)
  | logPrintf (format : GoString) (err : Error)
  | printf (out : GoString)
deriving DecidableEq, Repr

/-- Go `configFilePath`: the path to the configuration file in `~/.config/`. -/
def configFilePath (env : Env) : Except Error GoString × List Event :=
  match env.UserHomeDir with
  | .error err => (.error err, [.userHomeDir])
  | .ok home => (.ok (env.Join [home, lit ".config", configFileName]), [.userHomeDir])

/-- Go `loadConfig`: loads the configuration from the JSON file. -/
def loadConfig (env : Env) : Except Error Config × List Event :=
  match configFilePath env with
  | (.error err, t) => (.error err, t)
  | (.ok path, t) =>
    match env.ReadFile path with
    | .error err => (.error err, t ++ [.readFile path])
    | .ok data =>
      match env.Unmarshal data with
      | .error err => (.error err, t ++ [.readFile path])
      | .ok cfg => (.ok cfg, t ++ [.readFile path])

/-- Go `saveConfig`: writes the configuration to the JSON file; `none` is a nil
error. -/
def saveConfig (env : Env) (cfg : Config) : Option Error × List Event :=
  match configFilePath env with
  | (.error err, t) => (some err, t)
  | (.ok path, t) =>
    match env.MkdirAll (env.Dir path) 0o755 with
    | some err => (some err, t ++ [.mkdirAll (env.Dir path) 0o755])
    | none =>
      match env.MarshalIndent cfg (lit "") (lit "  ") with
      | .error err => (some err, t ++ [.mkdirAll (env.Dir path) 0o755])
      | .ok data =>
        (env.WriteFile path data 0o644,
          t ++ [.mkdirAll (env.Dir path) 0o755, .writeFile path data 0o644])

/-- The values `main` holds once lines 94-114 have run. -/
structure Settings where
  activeColor : NRGBA
  inactiveColor : NRGBA
  borderWidth : Float64
deriving DecidableEq, Repr

/-- The `float64` constant `6.0`. -/
def six : Float64 := 0x4018000000000000

/-- Lines 104-114 of Go `main`: each colour of the record is parsed, and one
that does not parse is replaced by its default; the width is taken as it is. -/
def main_decode (cfg : Config) : Settings × List Event :=
  let (activeColor, t1) :=
    match parseHexColor cfg.ActiveColor with
    | .error err =>
      (({ R := 0xe2, G := 0xe2, B := 0xe3, A := 0xff } : NRGBA),
        [Event.logPrintf (lit "Error parsing active_color, using default: %v\n") err])
    | .ok c => (c, [])
  let (inactiveColor, t2) :=
    match parseHexColor cfg.InactiveColor with
    | .error err =>
      (({ R := 0x41, G := 0x45, B := 0x50, A := 0xff } : NRGBA),
        [Event.logPrintf (lit "Error parsing inactive_color, using default: %v\n") err])
    | .ok c => (c, [])
  ({ activeColor := activeColor, inactiveColor := inactiveColor,
     borderWidth := cfg.BorderWidth }, t1 ++ t2)

/-- Lines 94-114 of Go `main`: load the configuration from file, or use
the defaults if loading fails, then decode it. -/
def main_startup (env : Env) : Settings × List Event :=
  let (cfg, t) :=
    match loadConfig env with
    | (.error err, t) =>
      (({ ActiveColor := lit "0xffe2e2e3", InactiveColor := lit "0xff414550",
          BorderWidth := six } : Config),
        t ++ [Event.logPrintf (lit "Could not load config, using defaults: %v\n") err])
    | (.ok cfg, t) => (cfg, t)
  let (st, t') := main_decode cfg
  (st, t ++ t')

/-- Go `updateBorders`: executes the borders binary with the new settings and
then saves the current configuration.  It returns nothing; the result here is
the sequence of calls it made. -/
def updateBorders (env : Env) (active inactive : NRGBA) (width : Float64) : List Event :=
  let activeHex := hexColorString active
  let inactiveHex := hexColorString inactive
  let widthStr := lit "width=" ++ fmtFloat1 width
  let args := [lit "active_color=" ++ activeHex, lit "inactive_color=" ++ inactiveHex, widthStr]
  let t1 :=
    match env.Run (lit "borders") args with
    | some err => [Event.run (lit "borders") args,
        Event.logPrintf (lit "Error updating borders: %v\n") err]
    | none => [Event.run (lit "borders") args,
        Event.printf (lit "Updated borders with active_color=" ++ activeHex ++
          lit ", inactive_color=" ++ inactiveHex ++ lit ", " ++ widthStr ++ lit "\n")]
  let cfg : Config :=
    { ActiveColor := activeHex, InactiveColor := inactiveHex, BorderWidth := width }
  match saveConfig env cfg with
  | (some err, t2) => t1 ++ t2 ++ [Event.logPrintf (lit "Error saving config: %v\n") err]
  | (none, t2) => t1 ++ t2

/-- Go `math.NaN()`: the quiet NaN with bit pattern `0x7FF8000000000001`. -/
def NaN : Float64 := 0x7FF8000000000001

/-- The signed value of a finite `float64` as a rational number. -/
def Float64.toRat (w : Float64) : ℚ :=
  (if w >>> 63 != 0 then -1 else 1) * (w.mantExp.1 : ℚ) * (2 : ℚ) ^ ((w.mantExp.2 : ℤ) - 1075)

/-- An environment for examples: the home directory is `/home/u`, reading the
configuration file gives `readResult`, decoding it gives `decoded`, running a
command gives `runResult`, and directories and files can be written. -/
def demoEnv (readResult : Except Error GoString) (decoded : Except Error Config)
    (runResult : Option Error) : Env :=
  { UserHomeDir := .ok (lit "/home/u")
    ReadFile := fun _ => readResult
    MkdirAll := fun _ _ => none
    WriteFile := fun _ _ _ => none
    Run := fun _ _ => runResult
    Join := fun elem => List.intercalate (lit "/") elem
    Dir := fun _ => lit "/home/u/.config"
    Unmarshal := fun _ => decoded
    MarshalIndent := fun _ _ _ => .ok (lit "{}") }

/-- The colour that the channel formulas of `parseHexColor` give for the
32-bit value `val`. -/
def channelsOf (val : Nat) : NRGBA :=
  { A := ((val >>> 24) &&& 0xFF) % 256
    R := ((val >>> 16) &&& 0xFF) % 256
    G := ((val >>> 8) &&& 0xFF) % 256
    B := (val &&& 0xFF) % 256 }

/-- A byte that is a decimal digit, `0-9`. -/
def isDecDigit (c : Nat) : Bool := 48 ≤ c && c ≤ 57

/-- The number a string of decimal digits denotes. -/
def decValue (s : GoString) : Nat := s.foldl (fun a b => 10 * a + (b - 48)) 0

/-- The event is a run of an external command. -/
def Event.isRun : Event → Bool
  | .run _ _ => true
  | _ => false

/-- The event is a lookup of the home directory, the first thing every call of
`configFilePath`, and so of `saveConfig` and `loadConfig`, does. -/
def Event.isUserHomeDir : Event → Bool
  | .userHomeDir => true
  | _ => false

/-! ## The file store behind `os.WriteFile` and `os.ReadFile` -/

/-- The regular files of the file system: the content stored at each path, if
there is a file. -/
abbrev FileStore := GoString → Option GoString

/-- The store once `os.WriteFile(path, data, perm)` has returned a nil error:
the file at `path` holds exactly `data`, every other file is as before. -/
def FileStore.WriteFile (fs : FileStore) (path data : GoString) : FileStore :=
  fun p => if p = path then some data else fs p

/-- Go `os.ReadFile(path)` on a store: the content of the file, or an error
when there is none. -/
def FileStore.ReadFile (fs : FileStore) (path : GoString) : Except Error GoString :=
  match fs path with
  | some data => .ok data
  | none => .error (.external (lit "open: no such file or directory"))

/-- The store left by a sequence of calls whose writes succeeded: each
`writeFile` event overwrites its file, in order; no other call changes a
regular file. -/
def FileStore.after (fs : FileStore) : List Event → FileStore
  | [] => fs
  | .writeFile path data _ :: rest => (fs.WriteFile path data).after rest
  | _ :: rest => fs.after rest

/-- The same environment with `os.ReadFile` answered from the store `fs`;
the home directory and the libraries are unchanged. -/
def Env.withStore (env : Env) (fs : FileStore) : Env :=
  { env with ReadFile := fs.ReadFile }

/-! ## The hex token in the words of its description -/

/-- The lower-case hexadecimal digit for a value below 16: `'0' + d` below
ten, `'a' + (d - 10)` from ten on. -/
def lowerHexDigit (d : Nat) : Nat := if d < 10 then 48 + d else 87 + d

/-- A byte that is a lower-case hexadecimal digit, `0-9` or `a-f`. -/
def isLowerHexDigit (c : Nat) : Bool :=
  (48 ≤ c && c ≤ 57) || (97 ≤ c && c ≤ 102)

/-- A byte that is a hexadecimal digit, `0-9`, `a-f` or `A-F`. -/
def isHexDigit (c : Nat) : Bool :=
  (48 ≤ c && c ≤ 57) || (97 ≤ c && c ≤ 102) || (65 ≤ c && c ≤ 70)

/-- The value of a hexadecimal digit. -/
def hexVal (c : Nat) : Nat :=
  if c ≤ 57 then c - 48 else if 97 ≤ c then c - 87 else c - 55

/-! ## Lemmas on the codec -/

theorem le_lower (c : Nat) : c ≤ lower c := by
  unfold lower
  apply Nat.le_of_testBit
  intro i hi
  simp [Nat.testBit_or, hi]

theorem digitVal_of_hex (c : Nat) (h : isHexDigit c = true) :
    digitVal c = some (hexVal c) ∧ hexVal c < 16 := by
  have hc : c < 103 := by
    simp only [isHexDigit, Bool.or_eq_true, Bool.and_eq_true, decide_eq_true_eq] at h
    omega
  have key : ∀ c, c < 103 → isHexDigit c = true →
      digitVal c = some (hexVal c) ∧ hexVal c < 16 := by decide
  exact key c hc h

theorem digitVal_of_not_hex (c : Nat) (h : isHexDigit c = false) :
    (digitVal c).all (fun d => decide (16 ≤ d)) = true := by
  by_cases hc : c < 128
  · have key : ∀ c, c < 128 → isHexDigit c = false →
        (digitVal c).all (fun d => decide (16 ≤ d)) = true := by decide
    exact key c hc h
  · have hl := le_lower c
    have : digitVal c = none := by
      unfold digitVal
      rw [if_neg (by omega), if_neg (by omega)]
    rw [this]; rfl

set_option maxRecDepth 100000 in
theorem fmtHex_two (v : Nat) (h : v < 256) :
    fmtHex 2 v = [lowerHexDigit (v / 16), lowerHexDigit (v % 16)] := by
  have key : ∀ v, v < 256 →
      fmtHex 2 v = [lowerHexDigit (v / 16), lowerHexDigit (v % 16)] := by decide
  exact key v h

theorem lowerHexDigit_spec (d : Nat) (h : d < 16) :
    isLowerHexDigit (lowerHexDigit d) = true ∧ isHexDigit (lowerHexDigit d) = true ∧
      hexVal (lowerHexDigit d) = d := by
  have key : ∀ d, d < 16 → isLowerHexDigit (lowerHexDigit d) = true ∧
      isHexDigit (lowerHexDigit d) = true ∧ hexVal (lowerHexDigit d) = d := by decide
  exact key d h

theorem pow_bound_step (n len : Nat) (h : (n + 1) * 16 ^ (len + 1) ≤ 2 ^ 32) :
    (n + 1) * 16 ≤ 2 ^ 32 ∧ ∀ d, d < 16 → (n * 16 + d + 1) * 16 ^ len ≤ 2 ^ 32 := by
  have hpos : 1 ≤ 16 ^ len := Nat.one_le_pow _ _ (by norm_num)
  have e : (n + 1) * 16 ^ (len + 1) = ((n + 1) * 16) * 16 ^ len := by ring
  rw [e] at h
  refine ⟨?_, ?_⟩
  · calc (n + 1) * 16 = (n + 1) * 16 * 1 := by ring
      _ ≤ (n + 1) * 16 * 16 ^ len := Nat.mul_le_mul_left _ hpos
      _ ≤ 2 ^ 32 := h
  · intro d hd
    calc (n * 16 + d + 1) * 16 ^ len ≤ ((n + 1) * 16) * 16 ^ len :=
          Nat.mul_le_mul_right _ (by omega)
      _ ≤ 2 ^ 32 := h

/-- On hexadecimal digits that fit in 32 bits the loop of `ParseUint` neither
stops early nor overflows: it returns the positional value. -/
theorem parseUintLoop_hex (cs : GoString) :
    ∀ n, (∀ c ∈ cs, isHexDigit c = true) → (n + 1) * 16 ^ cs.length ≤ 2 ^ 32 →
      parseUintLoop 16 ((2 ^ 64 - 1) / 16 + 1) (2 ^ 32 - 1) cs n =
        .ok (cs.foldl (fun a c => a * 16 + hexVal c) n) := by
  induction cs with
  | nil => intro n _ _; rfl
  | cons c cs ih =>
    intro n hall hb
    obtain ⟨hv, hlt⟩ := digitVal_of_hex c (hall c (List.mem_cons_self _ _))
    simp only [List.length_cons] at hb
    obtain ⟨h1, h2⟩ := pow_bound_step n cs.length hb
    have h3 := h2 (hexVal c) hlt
    have hpos : 1 ≤ 16 ^ cs.length := Nat.one_le_pow _ _ (by norm_num)
    have h4 : n * 16 + hexVal c + 1 ≤ 2 ^ 32 := by
      calc n * 16 + hexVal c + 1 = (n * 16 + hexVal c + 1) * 1 := by ring
        _ ≤ (n * 16 + hexVal c + 1) * 16 ^ cs.length := Nat.mul_le_mul_left _ hpos
        _ ≤ 2 ^ 32 := h3
    have e0 : n * 16 % 2 ^ 64 = n * 16 := Nat.mod_eq_of_lt (by omega)
    have e1 : (n * 16 + hexVal c) % 2 ^ 64 = n * 16 + hexVal c := Nat.mod_eq_of_lt (by omega)
    simp only [parseUintLoop, hv, List.foldl_cons]
    rw [if_neg (by omega), if_neg (by omega)]
    simp only [e0, e1]
    rw [if_neg (by omega)]
    exact ih _ (fun c hc => hall c (List.mem_cons_of_mem _ hc)) h3

/-- A byte that is no hexadecimal digit makes the loop of `ParseUint` stop
with `ErrSyntax`, when the digits before it fit in 32 bits. -/
theorem parseUintLoop_not_hex (cs : GoString) :
    ∀ n, (∃ c ∈ cs, isHexDigit c = false) → (n + 1) * 16 ^ cs.length ≤ 2 ^ 32 →
      parseUintLoop 16 ((2 ^ 64 - 1) / 16 + 1) (2 ^ 32 - 1) cs n = .error .ErrSyntax := by
  induction cs with
  | nil => intro n h _; obtain ⟨c, hc, _⟩ := h; cases hc
  | cons c cs ih =>
    intro n hex hb
    cases hc : isHexDigit c with
    | false =>
      have hd := digitVal_of_not_hex c hc
      unfold parseUintLoop
      cases hdv : digitVal c with
      | none => rfl
      | some d =>
        rw [hdv] at hd
        have : 16 ≤ d := by simpa using hd
        simp only []
        rw [if_pos this]
    | true =>
      obtain ⟨hv, hlt⟩ := digitVal_of_hex c hc
      simp only [List.length_cons] at hb
      obtain ⟨h1, h2⟩ := pow_bound_step n cs.length hb
      have h3 := h2 (hexVal c) hlt
      have hpos : 1 ≤ 16 ^ cs.length := Nat.one_le_pow _ _ (by norm_num)
      have h4 : n * 16 + hexVal c + 1 ≤ 2 ^ 32 := by
        calc n * 16 + hexVal c + 1 = (n * 16 + hexVal c + 1) * 1 := by ring
          _ ≤ (n * 16 + hexVal c + 1) * 16 ^ cs.length := Nat.mul_le_mul_left _ hpos
          _ ≤ 2 ^ 32 := h3
      have e0 : n * 16 % 2 ^ 64 = n * 16 := Nat.mod_eq_of_lt (by omega)
      have e1 : (n * 16 + hexVal c) % 2 ^ 64 = n * 16 + hexVal c :=
        Nat.mod_eq_of_lt (by omega)
      have hrest : ∃ c' ∈ cs, isHexDigit c' = false := by
        obtain ⟨c', hm, hf⟩ := hex
        rcases List.mem_cons.mp hm with rfl | hm'
        · rw [hc] at hf; cases hf
        · exact ⟨c', hm', hf⟩
      simp only [parseUintLoop, hv]
      rw [if_neg (by omega), if_neg (by omega)]
      simp only [e0, e1]
      rw [if_neg (by omega)]
      exact ih _ hrest h3

theorem lit_0x : lit "0x" = [48, 120] := by decide

theorem and_0xFF (x : Nat) : x &&& 0xFF = x % 256 :=
  Nat.and_pow_two_sub_one_eq_mod x 8

theorem channelsOf_digits (a1 a2 r1 r2 g1 g2 b1 b2 : Nat)
    (ha1 : a1 < 16) (ha2 : a2 < 16) (hr1 : r1 < 16) (hr2 : r2 < 16)
    (hg1 : g1 < 16) (hg2 : g2 < 16) (hb1 : b1 < 16) (hb2 : b2 < 16) :
    channelsOf ((((((((0 * 16 + a1) * 16 + a2) * 16 + r1) * 16 + r2) * 16 + g1) * 16 + g2)
        * 16 + b1) * 16 + b2) =
      { A := 16 * a1 + a2, R := 16 * r1 + r2, G := 16 * g1 + g2, B := 16 * b1 + b2 } := by
  simp only [channelsOf, and_0xFF, Nat.shiftRight_eq_div_pow, NRGBA.mk.injEq]
  refine ⟨?_, ?_, ?_, ?_⟩ <;> omega

/-- What `parseHexColor` returns on `"0x"` followed by eight hexadecimal
digits. -/
theorem parseHexColor_of_hex (ds : GoString) (hlen : ds.length = 8)
    (hhex : ∀ b ∈ ds, isHexDigit b = true) :
    parseHexColor (lit "0x" ++ ds) =
      .ok { A := 16 * hexVal (ds.getD 0 0) + hexVal (ds.getD 1 0)
            R := 16 * hexVal (ds.getD 2 0) + hexVal (ds.getD 3 0)
            G := 16 * hexVal (ds.getD 4 0) + hexVal (ds.getD 5 0)
            B := 16 * hexVal (ds.getD 6 0) + hexVal (ds.getD 7 0) } := by
  have hloop := parseUintLoop_hex ds 0 hhex (by rw [hlen]; norm_num)
  match ds, hlen, hhex, hloop with
  | [a1, a2, r1, r2, g1, g2, b1, b2], _, hhex, hloop =>
    have hv : ∀ b ∈ [a1, a2, r1, r2, g1, g2, b1, b2], hexVal b < 16 :=
      fun b hb => (digitVal_of_hex b (hhex b hb)).2
    have hch := channelsOf_digits (hexVal a1) (hexVal a2) (hexVal r1) (hexVal r2)
      (hexVal g1) (hexVal g2) (hexVal b1) (hexVal b2)
      (hv _ (by simp)) (hv _ (by simp)) (hv _ (by simp)) (hv _ (by simp))
      (hv _ (by simp)) (hv _ (by simp)) (hv _ (by simp)) (hv _ (by simp))
    simp only [List.foldl_cons, List.foldl_nil] at hloop
    have hp : ParseUint [a1, a2, r1, r2, g1, g2, b1, b2] 16 32 =
        .ok ((((((((0 * 16 + hexVal a1) * 16 + hexVal a2) * 16 + hexVal r1) * 16 + hexVal r2)
          * 16 + hexVal g1) * 16 + hexVal g2) * 16 + hexVal b1) * 16 + hexVal b2) := by
      unfold ParseUint
      rw [if_neg (by simp)]
      simp only [hloop]
    have hs : parseHexColor (lit "0x" ++ [a1, a2, r1, r2, g1, g2, b1, b2]) =
        .ok (channelsOf ((((((((0 * 16 + hexVal a1) * 16 + hexVal a2) * 16 + hexVal r1) * 16
          + hexVal r2) * 16 + hexVal g1) * 16 + hexVal g2) * 16 + hexVal b1) * 16
          + hexVal b2)) := by
      unfold parseHexColor
      rw [lit_0x, if_neg (by simp)]
      simp only [List.cons_append, List.nil_append, List.drop_succ_cons, List.drop_zero, hp]
      rfl
    rw [hs, hch]
    simp

/-- The token `hexColorString` produces, digit by digit. -/
theorem hexColorString_digits (c : NRGBA) (h : c.WF) :
    hexColorString c = lit "0x" ++
      [lowerHexDigit (c.A / 16), lowerHexDigit (c.A % 16),
       lowerHexDigit (c.R / 16), lowerHexDigit (c.R % 16),
       lowerHexDigit (c.G / 16), lowerHexDigit (c.G % 16),
       lowerHexDigit (c.B / 16), lowerHexDigit (c.B % 16)] := by
  obtain ⟨hR, hG, hB, hA⟩ := h
  unfold hexColorString
  rw [fmtHex_two _ hA, fmtHex_two _ hR, fmtHex_two _ hG, fmtHex_two _ hB]
  simp

/-! ## The colour codec: round trip, rejection, encoding, decoding -/

/-- C1. Round trip: for every colour `c` with four 8-bit channels,
`parseHexColor (hexColorString c)` succeeds and returns exactly `c`. -/
theorem parseHexColor_hexColorString (c : NRGBA) (h : c.WF) :
    parseHexColor (hexColorString c) = .ok c := by
  have hd := hexColorString_digits c h
  obtain ⟨hR, hG, hB, hA⟩ := h
  have hx : ∀ d, d < 16 → isHexDigit (lowerHexDigit d) = true :=
    fun d hd => (lowerHexDigit_spec d hd).2.1
  have hv : ∀ d, d < 16 → hexVal (lowerHexDigit d) = d :=
    fun d hd => (lowerHexDigit_spec d hd).2.2
  have hmem : ∀ b ∈ [lowerHexDigit (c.A / 16), lowerHexDigit (c.A % 16),
      lowerHexDigit (c.R / 16), lowerHexDigit (c.R % 16),
      lowerHexDigit (c.G / 16), lowerHexDigit (c.G % 16),
      lowerHexDigit (c.B / 16), lowerHexDigit (c.B % 16)], isHexDigit b = true := by
    intro b hb
    simp only [List.mem_cons, List.mem_singleton, List.not_mem_nil, or_false] at hb
    rcases hb with rfl | rfl | rfl | rfl | rfl | rfl | rfl | rfl <;> exact hx _ (by omega)
  have key := parseHexColor_of_hex _ (by rfl) hmem
  rw [hd, key]
  simp only [List.getD_cons_zero, List.getD_cons_succ]
  rw [hv _ (by omega), hv _ (by omega), hv _ (by omega), hv _ (by omega),
    hv _ (by omega), hv _ (by omega), hv _ (by omega), hv _ (by omega)]
  have eA : 16 * (c.A / 16) + c.A % 16 = c.A := by omega
  have eR : 16 * (c.R / 16) + c.R % 16 = c.R := by omega
  have eG : 16 * (c.G / 16) + c.G % 16 = c.G := by omega
  have eB : 16 * (c.B / 16) + c.B % 16 = c.B := by omega
  rw [eA, eR, eG, eB]

/-- The round trip at the default active colour `{A:0xff, R:0xe2, G:0xe2, B:0xe3}`. -/
theorem parseHexColor_hexColorString_witness :
    (⟨0xe2, 0xe2, 0xe3, 0xff⟩ : NRGBA).WF ∧
      parseHexColor (hexColorString ⟨0xe2, 0xe2, 0xe3, 0xff⟩) = .ok ⟨0xe2, 0xe2, 0xe3, 0xff⟩ :=
  ⟨by decide, parseHexColor_hexColorString ⟨0xe2, 0xe2, 0xe3, 0xff⟩ (by decide)⟩

/-- C2. For every string `s`, `parseHexColor s` fails: with the format error
`"invalid color format: " ++ s` when the length of `s` is not 10 or `s` does
not start with `"0x"`; with the `ParseUint` number error `ErrSyntax` when the
length is 10, the prefix is `"0x"` and one of the eight bytes after the prefix
is not a hexadecimal digit.  `"0xZZ414550"` gives the hex-parse error,
`"ff414550"` and `"0xff41455"` the format error. -/
theorem parseHexColor_rejects :
    (∀ s : GoString, s.length ≠ 10 ∨ s.take 2 ≠ lit "0x" →
      parseHexColor s = .error (.errorf (lit "invalid color format: " ++ s))) ∧
    (∀ s : GoString, s.length = 10 → s.take 2 = lit "0x" →
      (∃ b ∈ s.drop 2, isHexDigit b = false) →
      parseHexColor s = .error (.num ⟨lit "ParseUint", s.drop 2, .ErrSyntax⟩)) ∧
    parseHexColor (lit "0xZZ414550") =
      .error (.num ⟨lit "ParseUint", lit "ZZ414550", .ErrSyntax⟩) ∧
    parseHexColor (lit "ff414550") =
      .error (.errorf (lit "invalid color format: ff414550")) ∧
    parseHexColor (lit "0xff41455") =
      .error (.errorf (lit "invalid color format: 0xff41455")) := by
  refine ⟨?_, ?_, by decide, by decide, by decide⟩
  · intro s h
    unfold parseHexColor
    rw [if_pos h]
  · intro s hlen hpre hbad
    have hl : (s.drop 2).length = 8 := by simp [hlen]
    have hne : s.drop 2 ≠ [] := by
      intro h0; rw [h0] at hl; cases hl
    have hloop := parseUintLoop_not_hex (s.drop 2) 0 hbad (by rw [hl]; norm_num)
    unfold parseHexColor
    rw [if_neg (by simp [hlen, hpre])]
    unfold ParseUint
    rw [if_neg hne]
    simp only [hloop]

/-- The three rejections of C2 at concrete strings: a length other than 10,
a missing prefix, a byte that is no hexadecimal digit. -/
theorem parseHexColor_rejects_witness :
    parseHexColor (lit "0xff41455") =
        .error (.errorf (lit "invalid color format: " ++ lit "0xff41455")) ∧
      parseHexColor (lit "00ff414550") =
        .error (.errorf (lit "invalid color format: " ++ lit "00ff414550")) ∧
      parseHexColor (lit "0xff4145g0") =
        .error (.num ⟨lit "ParseUint", (lit "0xff4145g0").drop 2, .ErrSyntax⟩) :=
  ⟨parseHexColor_rejects.1 (lit "0xff41455") (Or.inl (by decide)),
   parseHexColor_rejects.1 (lit "00ff414550") (Or.inr (by decide)),
   parseHexColor_rejects.2.1 (lit "0xff4145g0") (by decide) (by decide)
     ⟨103, by decide, by decide⟩⟩

/-- C3. For every colour `c` with 8-bit channels, `hexColorString c` has length
exactly 10, starts with `"0x"`, and continues with eight lower-case hexadecimal
digits: for each of alpha, red, green, blue in that order, the digit of the
high four bits and then the digit of the low four bits.
`hexColorString {A:0xff, R:0xe2, G:0xe2, B:0xe3} = "0xffe2e2e3"`. -/
theorem hexColorString_format :
    (∀ c : NRGBA, c.WF →
      (hexColorString c).length = 10 ∧
      (hexColorString c).take 2 = lit "0x" ∧
      (hexColorString c).drop 2 =
        [lowerHexDigit (c.A / 16), lowerHexDigit (c.A % 16),
         lowerHexDigit (c.R / 16), lowerHexDigit (c.R % 16),
         lowerHexDigit (c.G / 16), lowerHexDigit (c.G % 16),
         lowerHexDigit (c.B / 16), lowerHexDigit (c.B % 16)] ∧
      (∀ b ∈ (hexColorString c).drop 2, isLowerHexDigit b = true)) ∧
    hexColorString ⟨0xe2, 0xe2, 0xe3, 0xff⟩ = lit "0xffe2e2e3" := by
  refine ⟨?_, by decide⟩
  intro c h
  have hd := hexColorString_digits c h
  obtain ⟨hR, hG, hB, hA⟩ := h
  have hx : ∀ d, d < 16 → isLowerHexDigit (lowerHexDigit d) = true :=
    fun d hd => (lowerHexDigit_spec d hd).1
  rw [hd, lit_0x]
  refine ⟨rfl, rfl, rfl, ?_⟩
  intro b hb
  simp only [List.cons_append, List.nil_append, List.drop_succ_cons, List.drop_zero,
    List.mem_cons, List.mem_singleton, List.not_mem_nil, or_false] at hb
  rcases hb with rfl | rfl | rfl | rfl | rfl | rfl | rfl | rfl <;> exact hx _ (by omega)

/-- The format of C3 at the default inactive colour `{A:0xff, R:0x41, G:0x45, B:0x50}`. -/
theorem hexColorString_format_witness :
    (hexColorString ⟨0x41, 0x45, 0x50, 0xff⟩).length = 10 ∧
      (hexColorString ⟨0x41, 0x45, 0x50, 0xff⟩).take 2 = lit "0x" :=
  ⟨(hexColorString_format.1 ⟨0x41, 0x45, 0x50, 0xff⟩ (by decide)).1,
   (hexColorString_format.1 ⟨0x41, 0x45, 0x50, 0xff⟩ (by decide)).2.1⟩

/-- C4. For every string made of `"0x"` and exactly eight hexadecimal digits
(upper or lower case), `parseHexColor` succeeds; alpha is the value of digits
1-2 of the suffix, red of digits 3-4, green of digits 5-6, blue of digits 7-8.
`parseHexColor "0xffe2e2e3" = {A:0xff, R:0xe2, G:0xe2, B:0xe3}`. -/
theorem parseHexColor_accepts :
    (∀ ds : GoString, ds.length = 8 → (∀ b ∈ ds, isHexDigit b = true) →
      parseHexColor (lit "0x" ++ ds) =
        .ok { A := 16 * hexVal (ds.getD 0 0) + hexVal (ds.getD 1 0)
              R := 16 * hexVal (ds.getD 2 0) + hexVal (ds.getD 3 0)
              G := 16 * hexVal (ds.getD 4 0) + hexVal (ds.getD 5 0)
              B := 16 * hexVal (ds.getD 6 0) + hexVal (ds.getD 7 0) }) ∧
    parseHexColor (lit "0xffe2e2e3") = .ok { A := 0xff, R := 0xe2, G := 0xe2, B := 0xe3 } :=
  ⟨parseHexColor_of_hex, by decide⟩

/-- The decoding of C4 at a token with upper-case digits, `"0xFF4145aB"`. -/
theorem parseHexColor_accepts_witness :
    parseHexColor (lit "0x" ++ lit "FF4145aB") =
      .ok { A := 0xff, R := 0x41, G := 0x45, B := 0xab } :=
  parseHexColor_accepts.1 (lit "FF4145aB") (by decide) (by decide)

/-- C10. `toNRGBA` returns an NRGBA colour unchanged; of any other colour it
takes, for each of R, G, B, A, the component returned by `RGBA()` shifted right
by 8 and truncated to 8 bits, which for a 16-bit component is its high byte;
the result has 8-bit channels, and converting twice is converting once. -/
theorem toNRGBA_spec :
    (∀ c : NRGBA, toNRGBA (.nrgba c) = c) ∧
    (∀ r g b a : Nat, toNRGBA (.other r g b a) =
      { R := (r / 2 ^ 8) % 2 ^ 8, G := (g / 2 ^ 8) % 2 ^ 8,
        B := (b / 2 ^ 8) % 2 ^ 8, A := (a / 2 ^ 8) % 2 ^ 8 }) ∧
    (∀ r g b a : Nat, r < 2 ^ 16 → g < 2 ^ 16 → b < 2 ^ 16 → a < 2 ^ 16 →
      toNRGBA (.other r g b a) = { R := r / 256, G := g / 256, B := b / 256, A := a / 256 } ∧
      (toNRGBA (.other r g b a)).WF) ∧
    (∀ c : Color, toNRGBA (.nrgba (toNRGBA c)) = toNRGBA c) := by
  refine ⟨fun _ => rfl, ?_, ?_, fun _ => rfl⟩
  · intro r g b a
    simp only [toNRGBA, Nat.shiftRight_eq_div_pow]
    norm_num
  · intro r g b a hr hg hb ha
    simp only [toNRGBA, Nat.shiftRight_eq_div_pow, NRGBA.WF, NRGBA.mk.injEq]
    refine ⟨⟨?_, ?_, ?_, ?_⟩, ?_, ?_, ?_, ?_⟩ <;> omega

/-- The conversion of C10 at opaque white, whose `RGBA()` is `0xffff` four times. -/
theorem toNRGBA_spec_witness :
    toNRGBA (.other 0xffff 0xffff 0xffff 0xffff) = { R := 255, G := 255, B := 255, A := 255 } :=
  (toNRGBA_spec.2.2.1 0xffff 0xffff 0xffff 0xffff
    (by norm_num) (by norm_num) (by norm_num) (by norm_num)).1

/-! ## Start-up: defaults for what cannot be loaded or decoded -/

/-- C5. Independent defaults at start-up: the active colour is the parsed
`ActiveColor` or else the default `{A:0xff, R:0xe2, G:0xe2, B:0xe3}`, the
inactive colour the parsed `InactiveColor` or else `{A:0xff, R:0x41, G:0x45,
B:0x50}`, the width is `BorderWidth` unchanged; this is what start-up uses for
every successfully loaded record, and a malformed active colour next to a
well-formed inactive one gives the default active and the decoded inactive. -/
theorem main_decode_independent :
    (∀ cfg : Config,
      (main_decode cfg).1.activeColor =
        (match parseHexColor cfg.ActiveColor with
          | .ok c => c
          | .error _ => { A := 0xff, R := 0xe2, G := 0xe2, B := 0xe3 }) ∧
      (main_decode cfg).1.inactiveColor =
        (match parseHexColor cfg.InactiveColor with
          | .ok c => c
          | .error _ => { A := 0xff, R := 0x41, G := 0x45, B := 0x50 }) ∧
      (main_decode cfg).1.borderWidth = cfg.BorderWidth) ∧
    (∀ (env : Env) (cfg : Config), (loadConfig env).1 = .ok cfg →
      (main_startup env).1 = (main_decode cfg).1) ∧
    (∀ (cfg : Config) (err : Error) (c : NRGBA),
      parseHexColor cfg.ActiveColor = .error err → parseHexColor cfg.InactiveColor = .ok c →
      (main_decode cfg).1 =
        { activeColor := { A := 0xff, R := 0xe2, G := 0xe2, B := 0xe3 }
          inactiveColor := c
          borderWidth := cfg.BorderWidth }) := by
  refine ⟨?_, ?_, ?_⟩
  · intro cfg
    unfold main_decode
    cases parseHexColor cfg.ActiveColor <;> cases parseHexColor cfg.InactiveColor <;>
      exact ⟨rfl, rfl, rfl⟩
  · intro env cfg h
    unfold main_startup
    rcases hl : loadConfig env with ⟨r, t⟩
    rw [hl] at h
    simp only at h
    subst h
    rfl
  · intro cfg err c h1 h2
    unfold main_decode
    rw [h1, h2]

/-- The independent defaults of C5 at a record with the malformed active colour
`"e2e2e3"`, the inactive colour `"0xff414550"` and width 6.0. -/
theorem main_decode_independent_witness :
    (main_decode ⟨lit "e2e2e3", lit "0xff414550", six⟩).1 =
      { activeColor := { A := 0xff, R := 0xe2, G := 0xe2, B := 0xe3 }
        inactiveColor := { A := 0xff, R := 0x41, G := 0x45, B := 0x50 }
        borderWidth := six } :=
  main_decode_independent.2.2 ⟨lit "e2e2e3", lit "0xff414550", six⟩
    (.errorf (lit "invalid color format: e2e2e3")) _ (by decide) (by decide)

/-- C6. Whenever `loadConfig` fails (the home directory cannot be resolved, the
file cannot be read, or its content does not decode) it returns that error, and
start-up then logs it once and goes on with the defaults: active colour
`{A:0xff, R:0xe2, G:0xe2, B:0xe3}`, inactive colour `{A:0xff, R:0x41, G:0x45,
B:0x50}`, width 6.0; the default hex strings decode without error to exactly
those colours. -/
theorem loadConfig_failure_defaults :
    (∀ (env : Env) (err : Error), env.UserHomeDir = .error err →
      (loadConfig env).1 = .error err) ∧
    (∀ (env : Env) (home : GoString) (err : Error), env.UserHomeDir = .ok home →
      env.ReadFile (env.Join [home, lit ".config", lit "border_picker.json"]) = .error err →
      (loadConfig env).1 = .error err) ∧
    (∀ (env : Env) (home data : GoString) (err : Error), env.UserHomeDir = .ok home →
      env.ReadFile (env.Join [home, lit ".config", lit "border_picker.json"]) = .ok data →
      env.Unmarshal data = .error err →
      (loadConfig env).1 = .error err) ∧
    (∀ (env : Env) (err : Error), (loadConfig env).1 = .error err →
      (main_startup env).1 =
        { activeColor := { A := 0xff, R := 0xe2, G := 0xe2, B := 0xe3 }
          inactiveColor := { A := 0xff, R := 0x41, G := 0x45, B := 0x50 }
          borderWidth := six } ∧
      (main_startup env).2 = (loadConfig env).2 ++
        [Event.logPrintf (lit "Could not load config, using defaults: %v\n") err]) ∧
    parseHexColor (lit "0xffe2e2e3") = .ok { A := 0xff, R := 0xe2, G := 0xe2, B := 0xe3 } ∧
    parseHexColor (lit "0xff414550") = .ok { A := 0xff, R := 0x41, G := 0x45, B := 0x50 } ∧
    six.isFinite = true ∧ six.toRat = 6 := by
  refine ⟨?_, ?_, ?_, ?_, by decide, by decide, by decide, ?_⟩
  · intro env err h
    simp only [loadConfig, configFilePath, h]
  · intro env home err h1 h2
    simp only [loadConfig, configFilePath, h1, configFileName, h2]
  · intro env home data err h1 h2 h3
    simp only [loadConfig, configFilePath, h1, configFileName, h2, h3]
  · intro env err h
    unfold main_startup
    rcases hl : loadConfig env with ⟨r, t⟩
    rw [hl] at h
    simp only at h
    subst h
    have ha : parseHexColor (lit "0xffe2e2e3") =
        .ok { A := 0xff, R := 0xe2, G := 0xe2, B := 0xe3 } := by decide
    have hi : parseHexColor (lit "0xff414550") =
        .ok { A := 0xff, R := 0x41, G := 0x45, B := 0x50 } := by decide
    simp only [main_decode, ha, hi, List.append_nil]
    exact ⟨trivial, trivial⟩
  · have hm : six.mantExp = (3 * 2 ^ 51, 1025) := by decide
    have hs : (six >>> 63 != 0) = false := by decide
    simp only [Float64.toRat, hm, hs]
    norm_num

/-- The defaults of C6 in an environment whose configuration file is missing. -/
theorem loadConfig_failure_defaults_witness :
    (main_startup (demoEnv (.error (.external (lit "no such file")))
        (.error (.external (lit "unexpected end of JSON input"))) none)).1 =
      { activeColor := { A := 0xff, R := 0xe2, G := 0xe2, B := 0xe3 }
        inactiveColor := { A := 0xff, R := 0x41, G := 0x45, B := 0x50 }
        borderWidth := six } :=
  (loadConfig_failure_defaults.2.2.2.1
    (demoEnv (.error (.external (lit "no such file")))
      (.error (.external (lit "unexpected end of JSON input"))) none)
    (.external (lit "no such file"))
    (loadConfig_failure_defaults.2.1 _ (lit "/home/u") _ rfl rfl)).1

/-! ## Applying the settings: the `borders` command and the save -/

theorem fmtDecLoop_digits (fuel : Nat) :
    ∀ (u : Nat) (buf : GoString), (∀ b ∈ buf, isDecDigit b = true) →
      ∀ b ∈ fmtDecLoop fuel u buf, isDecDigit b = true := by
  induction fuel with
  | zero => intro u buf h; exact h
  | succ fuel ih =>
    intro u buf h
    unfold fmtDecLoop
    split
    · apply ih
      intro b hb
      rcases List.mem_cons.mp hb with rfl | hb
      · simp only [isDecDigit, Bool.and_eq_true, decide_eq_true_eq]; omega
      · exact h b hb
    · intro b hb
      rcases List.mem_cons.mp hb with rfl | hb
      · simp only [isDecDigit, Bool.and_eq_true, decide_eq_true_eq]; omega
      · exact h b hb

theorem fmtDecLoop_ne_nil (fuel : Nat) :
    ∀ (u : Nat) (buf : GoString), 0 < fuel ∨ buf ≠ [] → fmtDecLoop fuel u buf ≠ [] := by
  induction fuel with
  | zero =>
    intro u buf h
    rcases h with h | h
    · omega
    · exact h
  | succ fuel ih =>
    intro u buf _
    unfold fmtDecLoop
    split
    · exact ih _ _ (Or.inr (List.cons_ne_nil _ _))
    · exact List.cons_ne_nil _ _

theorem fmtDecLoop_value (fuel : Nat) :
    ∀ (u : Nat) (buf : GoString), u < fuel →
      (fmtDecLoop fuel u buf).foldl (fun a b => 10 * a + (b - 48)) 0 =
        buf.foldl (fun a b => 10 * a + (b - 48)) u := by
  induction fuel with
  | zero => intro u buf h; omega
  | succ fuel ih =>
    intro u buf h
    unfold fmtDecLoop
    split
    · rw [ih _ _ (by omega), List.foldl_cons]
      congr 1
      omega
    · rw [List.foldl_cons]
      congr 1
      omega

/-- The digits `fmtDec` writes: at least one, all decimal, denoting the number. -/
theorem fmtDec_spec (u : Nat) :
    fmtDec u ≠ [] ∧ (∀ b ∈ fmtDec u, isDecDigit b = true) ∧ decValue (fmtDec u) = u := by
  refine ⟨fmtDecLoop_ne_nil _ _ _ (Or.inl (by omega)), ?_, ?_⟩
  · exact fmtDecLoop_digits _ _ _ (fun b hb => by cases hb)
  · unfold decValue fmtDec
    rw [fmtDecLoop_value _ _ _ (by omega)]
    rfl

/-- The rounding of `roundTenths`: exact when the value is an integer number of
units in the last place of at least one, otherwise within half a tenth of the
exact quotient `10 * mant / 2 ^ (1075 - exp)`. -/
theorem roundTenths_near (w : Float64) :
    (1075 ≤ w.mantExp.2 → w.roundTenths = 10 * w.mantExp.1 * 2 ^ (w.mantExp.2 - 1075)) ∧
    (w.mantExp.2 < 1075 →
      2 * (10 * w.mantExp.1) ≤ (2 * w.roundTenths + 1) * 2 ^ (1075 - w.mantExp.2) ∧
      2 * w.roundTenths * 2 ^ (1075 - w.mantExp.2) ≤
        2 * (10 * w.mantExp.1) + 2 ^ (1075 - w.mantExp.2)) := by
  have hdef : w.roundTenths =
      if 1075 ≤ w.mantExp.2 then 10 * w.mantExp.1 * 2 ^ (w.mantExp.2 - 1075)
      else if 2 * (10 * w.mantExp.1 % 2 ^ (1075 - w.mantExp.2)) > 2 ^ (1075 - w.mantExp.2) ∨
          (2 * (10 * w.mantExp.1 % 2 ^ (1075 - w.mantExp.2)) = 2 ^ (1075 - w.mantExp.2) ∧
            10 * w.mantExp.1 / 2 ^ (1075 - w.mantExp.2) % 2 = 1)
        then 10 * w.mantExp.1 / 2 ^ (1075 - w.mantExp.2) + 1
        else 10 * w.mantExp.1 / 2 ^ (1075 - w.mantExp.2) := rfl
  rw [hdef]
  generalize w.mantExp.1 = mant
  generalize w.mantExp.2 = exp
  refine ⟨?_, ?_⟩
  · intro h
    rw [if_pos h]
  · intro h
    rw [if_neg (Nat.not_le.mpr h)]
    have hpos : 0 < 2 ^ (1075 - exp) := Nat.two_pow_pos _
    generalize 2 ^ (1075 - exp) = den at hpos ⊢
    generalize 10 * mant = num
    have hdm := Nat.div_add_mod num den
    have hlt : num % den < den := Nat.mod_lt _ hpos
    generalize num / den = q at hdm ⊢
    generalize num % den = r at hdm hlt ⊢
    subst hdm
    clear hdef
    split
    · rename_i hup
      have h2 : den ≤ 2 * r := by
        rcases hup with hup | hup
        · omega
        · omega
      constructor
      · nlinarith
      · nlinarith
    · rename_i hup
      have h2 : 2 * r ≤ den := by
        by_contra hc
        exact hup (Or.inl (by omega))
      constructor
      · nlinarith
      · nlinarith

/-- The shape of `%.1f` on a finite `float64`: an optional minus sign, the
integer part, a point, one digit; the digits denote the rounded tenths. -/
theorem fmtFloat1_finite (w : Float64) (h : w.isFinite = true) :
    fmtFloat1 w = (if w >>> 63 != 0 then [45] else []) ++ fmtDec (w.roundTenths / 10) ++
        [46] ++ [48 + w.roundTenths % 10] ∧
      isDecDigit (48 + w.roundTenths % 10) = true ∧
      decValue (fmtDec (w.roundTenths / 10) ++ [48 + w.roundTenths % 10]) = w.roundTenths := by
  have hexp : ¬ ((w >>> 52) &&& 0x7FF = 0x7FF) := by
    simpa [Float64.isFinite] using h
  refine ⟨?_, ?_, ?_⟩
  · unfold fmtFloat1
    simp only [if_neg hexp]
  · simp only [isDecDigit, Bool.and_eq_true, decide_eq_true_eq]; omega
  · have hv := (fmtDec_spec (w.roundTenths / 10)).2.2
    unfold decValue at hv ⊢
    rw [List.foldl_append, hv]
    simp only [List.foldl_cons, List.foldl_nil]
    omega

/-- Every call of `saveConfig` looks up the home directory exactly once, as its
first action, and runs no command. -/
theorem saveConfig_trace (env : Env) (cfg : Config) :
    (saveConfig env cfg).2.filter Event.isRun = [] ∧
      (saveConfig env cfg).2.filter Event.isUserHomeDir = [Event.userHomeDir] ∧
      (saveConfig env cfg).2.head? = some Event.userHomeDir := by
  cases h1 : env.UserHomeDir with
  | error err => simp [saveConfig, configFilePath, h1, Event.isRun, Event.isUserHomeDir]
  | ok home =>
    simp only [saveConfig, configFilePath, h1]
    split
    · simp [Event.isRun, Event.isUserHomeDir]
    · split
      · simp [Event.isRun, Event.isUserHomeDir]
      · simp [Event.isRun, Event.isUserHomeDir]

/-- The calls `updateBorders` makes, in order: the command, one line of output
(a log line if the command failed), the calls of one `saveConfig`, and a log
line if the save failed. -/
theorem updateBorders_trace (env : Env) (a i : NRGBA) (w : Float64) :
    updateBorders env a i w =
      [Event.run (lit "borders")
          [lit "active_color=" ++ hexColorString a, lit "inactive_color=" ++ hexColorString i,
            lit "width=" ++ fmtFloat1 w],
        match env.Run (lit "borders")
          [lit "active_color=" ++ hexColorString a, lit "inactive_color=" ++ hexColorString i,
            lit "width=" ++ fmtFloat1 w] with
        | some err => Event.logPrintf (lit "Error updating borders: %v\n") err
        | none => Event.printf (lit "Updated borders with active_color=" ++ hexColorString a ++
            lit ", inactive_color=" ++ hexColorString i ++ lit ", " ++
            (lit "width=" ++ fmtFloat1 w) ++ lit "\n")] ++
      (saveConfig env ⟨hexColorString a, hexColorString i, w⟩).2 ++
      (match (saveConfig env ⟨hexColorString a, hexColorString i, w⟩).1 with
        | some err => [Event.logPrintf (lit "Error saving config: %v\n") err]
        | none => []) := by
  simp only [updateBorders]
  rcases saveConfig env ⟨hexColorString a, hexColorString i, w⟩ with ⟨r, t⟩
  cases r <;>
    cases env.Run (lit "borders")
      [lit "active_color=" ++ hexColorString a, lit "inactive_color=" ++ hexColorString i,
        lit "width=" ++ fmtFloat1 w] <;> simp

/-- The rounded tenths are within one half of ten times the magnitude of the
value. -/
theorem roundTenths_toRat (w : Float64) :
    |10 * |w.toRat| - (w.roundTenths : ℚ)| ≤ 1 / 2 := by
  have habs : |w.toRat| = (w.mantExp.1 : ℚ) * (2 : ℚ) ^ ((w.mantExp.2 : ℤ) - 1075) := by
    unfold Float64.toRat
    have hp : (0 : ℚ) < (2 : ℚ) ^ ((w.mantExp.2 : ℤ) - 1075) := zpow_pos (by norm_num) _
    have hm : (0 : ℚ) ≤ (w.mantExp.1 : ℚ) := Nat.cast_nonneg _
    rw [abs_mul, abs_mul, abs_of_pos hp, abs_of_nonneg hm]
    split <;> simp
  obtain ⟨hbig, hsmall⟩ := roundTenths_near w
  rw [habs]
  generalize w.mantExp.1 = mant at hbig hsmall ⊢
  generalize w.mantExp.2 = exp at hbig hsmall ⊢
  generalize w.roundTenths = t at hbig hsmall ⊢
  rcases Nat.lt_or_ge exp 1075 with h | h
  · obtain ⟨h1, h2⟩ := hsmall h
    have he : ((exp : ℤ) - 1075) = -(((1075 - exp : ℕ)) : ℤ) := by omega
    rw [he, zpow_neg, zpow_natCast]
    have hD : (0 : ℚ) < (2 : ℚ) ^ (1075 - exp) := pow_pos (by norm_num) _
    have c1 : (2 : ℚ) * (10 * (mant : ℚ)) ≤ (2 * (t : ℚ) + 1) * (2 : ℚ) ^ (1075 - exp) := by
      exact_mod_cast h1
    have c2 : (2 : ℚ) * (t : ℚ) * (2 : ℚ) ^ (1075 - exp) ≤
        2 * (10 * (mant : ℚ)) + (2 : ℚ) ^ (1075 - exp) := by
      exact_mod_cast h2
    generalize (2 : ℚ) ^ (1075 - exp) = D at hD c1 c2 ⊢
    have e : 10 * ((mant : ℚ) * D⁻¹) - (t : ℚ) = (10 * (mant : ℚ) - (t : ℚ) * D) / D := by
      field_simp
      ring
    rw [e, abs_le]
    constructor
    · rw [le_div_iff₀ hD]; linarith
    · rw [div_le_iff₀ hD]; linarith
  · have ht := hbig h
    have he : ((exp : ℤ) - 1075) = (((exp - 1075 : ℕ)) : ℤ) := by omega
    rw [he, zpow_natCast, ht]
    push_cast
    have e : 10 * ((mant : ℚ) * (2 : ℚ) ^ (exp - 1075)) -
        10 * (mant : ℚ) * (2 : ℚ) ^ (exp - 1075) = 0 := by ring
    rw [e]
    norm_num

/-- Replacing the answer to the command leaves `saveConfig` as it is. -/
theorem saveConfig_run_irrelevant (env : Env) (f : GoString → List GoString → Option Error)
    (cfg : Config) : saveConfig { env with Run := f } cfg = saveConfig env cfg := rfl

/-- The run event of `updateBorders` comes first and is the only one. -/
theorem updateBorders_run (env : Env) (a i : NRGBA) (w : Float64) :
    (updateBorders env a i w).head? = some (Event.run (lit "borders")
        [lit "active_color=" ++ hexColorString a, lit "inactive_color=" ++ hexColorString i,
          lit "width=" ++ fmtFloat1 w]) ∧
      (updateBorders env a i w).filter Event.isRun = [Event.run (lit "borders")
        [lit "active_color=" ++ hexColorString a, lit "inactive_color=" ++ hexColorString i,
          lit "width=" ++ fmtFloat1 w]] := by
  obtain ⟨hs1, _, _⟩ := saveConfig_trace env ⟨hexColorString a, hexColorString i, w⟩
  rw [updateBorders_trace]
  refine ⟨by simp, ?_⟩
  rw [List.filter_append, List.filter_append, hs1]
  generalize env.Run (lit "borders") [lit "active_color=" ++ hexColorString a,
    lit "inactive_color=" ++ hexColorString i, lit "width=" ++ fmtFloat1 w] = r
  generalize (saveConfig env ⟨hexColorString a, hexColorString i, w⟩).1 = r'
  cases r <;> cases r' <;> simp [Event.isRun]

set_option exponentiation.threshold 2000 in
/-- The verb `%.1f` on the width 0. -/
theorem fmtFloat1_zero : fmtFloat1 0 = lit "0.0" := by decide

/-- C7, amended to finite widths.  For every active colour, inactive colour and
width, `updateBorders` runs the executable `borders` first and once, with
exactly the three arguments `active_color=` + `hexColorString active`,
`inactive_color=` + `hexColorString inactive` and `width=` + the `%.1f` form of
the width.  For every finite width that form is fixed-point with exactly one
decimal digit: an optional `-`, at least one decimal digit, a point, one
decimal digit, the digits denoting the width in tenths rounded to nearest.
Width 6.0 gives `width=6.0`, width 0 gives `width=0.0`. -/
theorem updateBorders_command :
    (∀ (env : Env) (a i : NRGBA) (w : Float64),
      (updateBorders env a i w).head? = some (Event.run (lit "borders")
        [lit "active_color=" ++ hexColorString a, lit "inactive_color=" ++ hexColorString i,
          lit "width=" ++ fmtFloat1 w]) ∧
      (updateBorders env a i w).filter Event.isRun = [Event.run (lit "borders")
        [lit "active_color=" ++ hexColorString a, lit "inactive_color=" ++ hexColorString i,
          lit "width=" ++ fmtFloat1 w]]) ∧
    (∀ w : Float64, w.isFinite = true →
      ∃ (ip : GoString) (d : Nat),
        fmtFloat1 w = (if w >>> 63 != 0 then lit "-" else []) ++ ip ++ lit "." ++ [d] ∧
        ip ≠ [] ∧ (∀ b ∈ ip, isDecDigit b = true) ∧ isDecDigit d = true ∧
        |10 * |w.toRat| - (decValue (ip ++ [d]) : ℚ)| ≤ 1 / 2) ∧
    six.toRat = 6 ∧ lit "width=" ++ fmtFloat1 six = lit "width=6.0" ∧
    Float64.toRat 0 = 0 ∧ lit "width=" ++ fmtFloat1 0 = lit "width=0.0" := by
  refine ⟨updateBorders_run, ?_, ?_, by decide, ?_, ?_⟩
  · intro w h
    obtain ⟨hf, hd, hv⟩ := fmtFloat1_finite w h
    obtain ⟨hne, hdig, _⟩ := fmtDec_spec (w.roundTenths / 10)
    refine ⟨fmtDec (w.roundTenths / 10), 48 + w.roundTenths % 10, ?_, hne, hdig, hd, ?_⟩
    · rw [hf]
      have e1 : lit "-" = [45] := by decide
      have e2 : lit "." = [46] := by decide
      rw [e1, e2]
    · rw [hv]
      exact roundTenths_toRat w
  · have hm : six.mantExp = (3 * 2 ^ 51, 1025) := by decide
    have hs : (six >>> 63 != 0) = false := by decide
    simp only [Float64.toRat, hm, hs]
    norm_num
  · have hm : Float64.mantExp 0 = (0, 1) := by decide
    simp only [Float64.toRat, hm]
    norm_num
  · rw [fmtFloat1_zero]
    decide

/-- The fixed-point form of C7 at the finite width 12.1 (`0x4028333333333333`). -/
theorem updateBorders_command_witness :
    ∃ (ip : GoString) (d : Nat),
      fmtFloat1 0x4028333333333333 =
        (if (0x4028333333333333 : Nat) >>> 63 != 0 then lit "-" else []) ++ ip ++ lit "." ++ [d] ∧
      ip ≠ [] ∧ (∀ b ∈ ip, isDecDigit b = true) ∧ isDecDigit d = true ∧
      |10 * |Float64.toRat 0x4028333333333333| - (decValue (ip ++ [d]) : ℚ)| ≤ 1 / 2 :=
  updateBorders_command.2.1 0x4028333333333333 (by decide)

/-- C7 as stated fails at a width that is not finite: with `math.NaN()` the
third argument is `width=NaN`, which has no decimal point and no digit. -/
theorem updateBorders_command_nan :
    (updateBorders (demoEnv (.ok []) (.error (.external [])) none)
        ⟨0xe2, 0xe2, 0xe3, 0xff⟩ ⟨0x41, 0x45, 0x50, 0xff⟩ NaN).head? =
      some (Event.run (lit "borders")
        [lit "active_color=0xffe2e2e3", lit "inactive_color=0xff414550", lit "width=NaN"]) ∧
    (∀ b ∈ lit "NaN", isDecDigit b = false ∧ b ≠ 46) ∧
    NaN.isFinite = false := by
  decide

/-- C8. In every call of `updateBorders`, whatever the `borders` command
returns, the calls made are: the command, one line (a log line if it failed),
then the calls of exactly one `saveConfig` of the record `{ActiveColor:
hexColorString active, InactiveColor: hexColorString inactive, BorderWidth:
width}`, then a log line if the save failed.  The home directory is looked up
exactly once (one `saveConfig`), and what follows the command's two events does
not depend on the command's result.  Nothing is returned to the caller. -/
theorem updateBorders_saves (env : Env) (a i : NRGBA) (w : Float64) :
    updateBorders env a i w =
      [Event.run (lit "borders")
          [lit "active_color=" ++ hexColorString a, lit "inactive_color=" ++ hexColorString i,
            lit "width=" ++ fmtFloat1 w],
        match env.Run (lit "borders")
          [lit "active_color=" ++ hexColorString a, lit "inactive_color=" ++ hexColorString i,
            lit "width=" ++ fmtFloat1 w] with
        | some err => Event.logPrintf (lit "Error updating borders: %v\n") err
        | none => Event.printf (lit "Updated borders with active_color=" ++ hexColorString a ++
            lit ", inactive_color=" ++ hexColorString i ++ lit ", " ++
            (lit "width=" ++ fmtFloat1 w) ++ lit "\n")] ++
      (saveConfig env ⟨hexColorString a, hexColorString i, w⟩).2 ++
      (match (saveConfig env ⟨hexColorString a, hexColorString i, w⟩).1 with
        | some err => [Event.logPrintf (lit "Error saving config: %v\n") err]
        | none => []) ∧
    (updateBorders env a i w).filter Event.isUserHomeDir = [Event.userHomeDir] ∧
    (∀ r : Option Error,
      (updateBorders { env with Run := fun _ _ => r } a i w).drop 2 =
        (updateBorders env a i w).drop 2) := by
  obtain ⟨_, hs2, _⟩ := saveConfig_trace env ⟨hexColorString a, hexColorString i, w⟩
  refine ⟨updateBorders_trace env a i w, ?_, ?_⟩
  · rw [updateBorders_trace, List.filter_append, List.filter_append, hs2]
    generalize env.Run (lit "borders") [lit "active_color=" ++ hexColorString a,
      lit "inactive_color=" ++ hexColorString i, lit "width=" ++ fmtFloat1 w] = r
    generalize (saveConfig env ⟨hexColorString a, hexColorString i, w⟩).1 = r'
    cases r <;> cases r' <;> simp [Event.isUserHomeDir]
  · intro r
    rw [updateBorders_trace, updateBorders_trace, saveConfig_run_irrelevant]
    simp

/-! ## Saving, then loading -/

/-- What a successful `saveConfig` did: the home directory resolved, the
directory was made, the record was marshalled, and the marshalled bytes were
written under `<home>/.config/border_picker.json`. -/
theorem saveConfig_ok (env : Env) (cfg : Config) (hsave : (saveConfig env cfg).1 = none) :
    ∃ home data, env.UserHomeDir = .ok home ∧
      env.MarshalIndent cfg (lit "") (lit "  ") = .ok data ∧
      (saveConfig env cfg).2 =
        [Event.userHomeDir,
          Event.mkdirAll (env.Dir (env.Join [home, lit ".config", lit "border_picker.json"])) 0o755,
          Event.writeFile (env.Join [home, lit ".config", lit "border_picker.json"]) data 0o644] := by
  cases h1 : env.UserHomeDir with
  | error err => simp [saveConfig, configFilePath, h1] at hsave
  | ok home =>
    cases h2 : env.MkdirAll (env.Dir (env.Join [home, lit ".config", lit "border_picker.json"]))
        0o755 with
    | some err => simp [saveConfig, configFilePath, configFileName, h1, h2] at hsave
    | none =>
      cases h3 : env.MarshalIndent cfg (lit "") (lit "  ") with
      | error err => simp [saveConfig, configFilePath, configFileName, h1, h2, h3] at hsave
      | ok data =>
        refine ⟨home, data, rfl, rfl, ?_⟩
        simp [saveConfig, configFilePath, configFileName, h1, h2, h3]

/-- C9. Save then load: for every settings record (so for every valid one,
with hex tokens from `hexColorString` and a finite width in `[0, 20]`), if
`saveConfig cfg` succeeds, then `loadConfig` run next on the file store the
save left behind, in the otherwise unchanged environment, succeeds and returns
`cfg` itself, provided `json.Unmarshal` gives back the record from the bytes
`json.MarshalIndent` produced for it.  The save wrote exactly those bytes to
`<home>/.config/border_picker.json`, the file the load reads, and touched no
other file. -/
theorem saveConfig_loadConfig (env : Env) (fs : FileStore) (cfg : Config)
    (hsave : (saveConfig env cfg).1 = none)
    (hjson : ∀ data, env.MarshalIndent cfg (lit "") (lit "  ") = .ok data →
      env.Unmarshal data = .ok cfg) :
    (loadConfig (env.withStore (fs.after (saveConfig env cfg).2))).1 = .ok cfg ∧
    (∃ home data, env.UserHomeDir = .ok home ∧
      env.MarshalIndent cfg (lit "") (lit "  ") = .ok data ∧
      fs.after (saveConfig env cfg).2
          (env.Join [home, lit ".config", lit "border_picker.json"]) = some data ∧
      ∀ p, p ≠ env.Join [home, lit ".config", lit "border_picker.json"] →
        fs.after (saveConfig env cfg).2 p = fs p) := by
  obtain ⟨home, data, h1, h3, ht⟩ := saveConfig_ok env cfg hsave
  have hu := hjson data h3
  have hstore : fs.after (saveConfig env cfg).2 =
      fs.WriteFile (env.Join [home, lit ".config", lit "border_picker.json"]) data := by
    rw [ht]; rfl
  have hread : (fs.after (saveConfig env cfg).2).ReadFile
      (env.Join [home, lit ".config", lit "border_picker.json"]) = .ok data := by
    rw [hstore]
    simp [FileStore.ReadFile, FileStore.WriteFile]
  refine ⟨?_, home, data, h1, h3, ?_, ?_⟩
  · have e1 : (env.withStore (fs.after (saveConfig env cfg).2)).UserHomeDir = .ok home := h1
    have e2 : (env.withStore (fs.after (saveConfig env cfg).2)).ReadFile
        ((env.withStore (fs.after (saveConfig env cfg).2)).Join
          [home, lit ".config", lit "border_picker.json"]) = .ok data := hread
    have e3 : (env.withStore (fs.after (saveConfig env cfg).2)).Unmarshal data = .ok cfg := hu
    simp only [loadConfig, configFilePath, configFileName, e1, e2, e3]
  · rw [hstore]
    simp [FileStore.WriteFile]
  · intro p hp
    rw [hstore]
    simp [FileStore.WriteFile, hp]

/-- The round trip of C9 at the default record `{"0xffe2e2e3", "0xff414550",
6.0}`, saved on an empty store in an environment whose decoder returns that
record. -/
theorem saveConfig_loadConfig_witness :
    (saveConfig (demoEnv (.ok []) (.ok ⟨lit "0xffe2e2e3", lit "0xff414550", six⟩) none)
        ⟨lit "0xffe2e2e3", lit "0xff414550", six⟩).1 = none ∧
      (loadConfig ((demoEnv (.ok []) (.ok ⟨lit "0xffe2e2e3", lit "0xff414550", six⟩) none).withStore
        (FileStore.after (fun _ => none)
          (saveConfig (demoEnv (.ok []) (.ok ⟨lit "0xffe2e2e3", lit "0xff414550", six⟩) none)
            ⟨lit "0xffe2e2e3", lit "0xff414550", six⟩).2))).1 =
        .ok ⟨lit "0xffe2e2e3", lit "0xff414550", six⟩ :=
  ⟨rfl, (saveConfig_loadConfig
    (demoEnv (.ok []) (.ok ⟨lit "0xffe2e2e3", lit "0xff414550", six⟩) none) (fun _ => none)
    ⟨lit "0xffe2e2e3", lit "0xff414550", six⟩ rfl (fun _ _ => rfl)).1⟩

end BorderPicker
